import Mathlib

/-!
Load balancer `lb2.c`: estimator, validator and request proxy

A shallow embedding of `src/hw4/effortlessCode/lb2.c`.

Conventions of the embedding

* A byte is a natural number below 256; a `char[]` is the list of its bytes.
  A C string is the run of bytes before the first NUL.
* `char` may be signed or unsigned (implementation-defined); every function
  that reads a `char` as a number takes the choice as a `Bool`.
* `double` is modelled by exact rational arithmetic (`ℚ`): rounding,
  infinities and NaN are outside the model.
* Out-parameters (`int* chosen_server`, ...) become an input holding the
  value the pointee has on entry and a field of the result.
* The clock (`get_current_time`) and the network are inputs: `now` is the
  value read at line 218, and a `World` answers every socket call.
* `greedy_balance` runs under the mutex from its first to its last line, so it
  is modelled as one atomic step on the registry. `handle_request` is modelled
  as one thread run in isolation. Logging (`printf`, `perror`) is left out.
-/

namespace LB2

/-! ## Constants and data model (lines 12-36) -/

def BUFFER_SIZE : Nat := 1024
def MAX_SERVERS : Nat := 3
def MAX_CLIENTS : Nat := 5
def MIN_DURATION : Int := 1
def MAX_DURATION : Int := 9

/-- The struct `ServerInfo` (lines 18-25). -/
structure ServerInfo where
  socket : Int
  ip : List Nat
  port : Int
  type : List Nat
  expected_time : ℚ
  last_update : ℚ
deriving DecidableEq

/-- The struct `ThreadArgs` (lines 27-33). -/
structure ThreadArgs where
  client_socket : Int
  server_socket : Int
  request : List Nat
  server_ip : List Nat
  server_port : Int
deriving DecidableEq

/-! ## C library pieces the program relies on -/

/-- The bytes of a string literal, without the terminating NUL. -/
def lit (s : String) : List Nat := s.toList.map Char.toNat

/-- The C string stored at the start of `mem`: the bytes before the first NUL. -/
def c_str (mem : List Nat) : List Nat := mem.takeWhile (fun b => b ≠ 0)

/-- The function `strlen`. -/
def strlen (mem : List Nat) : Nat := (c_str mem).length

/-- The function `strcmp`, as far as the program uses it: zero exactly when the
two C strings are equal. -/
def strcmp (a b : List Nat) : Int := if c_str a = c_str b then 0 else 1

/-- The function `strncpy(dest, src, n)`: the `n` bytes written to `dest`. A source string
shorter than `n` is padded with NULs; otherwise its first `n` bytes are copied
and no NUL is written. -/
def strncpy (src : List Nat) (n : Nat) : List Nat :=
  if strlen src < n then c_str src ++ List.replicate (n - strlen src) 0
  else (c_str src).take n

/-- The numeric value of a `char` holding byte `b`. -/
def charVal (signed : Bool) (b : Nat) : Int :=
  if signed && decide (128 ≤ b % 256) then ((b % 256 : Nat) : Int) - 256 else ((b % 256 : Nat) : Int)

/-! ## `validate_request` (lines 282-303) -/

/-- The two out-parameters of `validate_request`. -/
structure Validation where
  duration : Int
  is_valid : Int
deriving DecidableEq

/-- The function `validate_request`. `duration0` is the value `*duration` holds on entry. -/
def validate_request (signed : Bool) (request : List Nat) (duration0 : Int) : Validation :=
  if strlen request < 2 then ⟨duration0, 0⟩
  else
    let req_type := charVal signed (request.getD 0 0)
    let duration := charVal signed (request.getD 1 0) - 48
    if req_type ≠ 77 ∧ req_type ≠ 86 ∧ req_type ≠ 80 then ⟨duration, 0⟩
    else if duration < MIN_DURATION ∨ duration > MAX_DURATION then ⟨duration, 0⟩
    else ⟨duration, 1⟩

/-- Lines 118-125 of `main`: the contents of `request[]` after `recv` delivered
`rx` and the terminator was written; `garbage` is what the array held before. -/
def main_request_buffer (rx garbage : List Nat) : List Nat :=
  let got := rx.take (BUFFER_SIZE - 1)
  got ++ 0 :: garbage.drop (got.length + 1)

/-! ## `greedy_balance` (lines 216-255) -/

/-- One iteration of the decay loop (lines 222-225). -/
def decay (now : ℚ) (s : ServerInfo) : ServerInfo :=
  let delta := now - s.last_update
  { s with
    expected_time := if s.expected_time > delta then s.expected_time - delta else 0
    last_update := now }

/-- Lines 234-241: the weight of a request of type `req_type` on a server. -/
def weight (s : ServerInfo) (req_type : Int) : ℚ :=
  if strcmp s.type (lit "VIDEO") = 0 then
    (if req_type = 77 then 2 else 1)
  else
    (if req_type = 86 then 3 else if req_type = 80 then 2 else 1)

/-- The variables the selection loop writes: `min_time` and the two out-parameters. -/
structure Selection where
  min_time : ℚ
  chosen_server : Nat
  expected_time : ℚ
deriving DecidableEq

/-- Line 243: `total_time` for server `s`. -/
def total_time (req_type duration : Int) (s : ServerInfo) : ℚ :=
  s.expected_time + (duration : ℚ) * weight s req_type

/-- One iteration of the selection loop (lines 234-248) at index `i`. -/
def select_step (req_type duration : Int) (st : Selection) (i : Nat) (s : ServerInfo) :
    Selection :=
  if st.min_time < 0 ∨ total_time req_type duration s < st.min_time then
    ⟨total_time req_type duration s, i, total_time req_type duration s⟩
  else st

/-- The selection loop (lines 233-249) over the servers from index `i` on. -/
def select_loop (req_type duration : Int) : List ServerInfo → Nat → Selection → Selection
  | [], _, st => st
  | s :: rest, i, st => select_loop req_type duration rest (i + 1) (select_step req_type duration st i s)

/-- Lines 252-253: the write to `servers[c]`. -/
def assign (servers : List ServerInfo) (c : Nat) (expected_time now : ℚ) : List ServerInfo :=
  match servers[c]? with
  | some s => servers.set c { s with expected_time := expected_time, last_update := now }
  | none => servers

/-- What `greedy_balance` leaves behind: the registry and its two out-parameters. -/
structure Balance where
  servers : List ServerInfo
  chosen_server : Nat
  expected_time : ℚ
deriving DecidableEq

/-- The function `greedy_balance`. `now` is the clock reading of line 218; `chosen0` and
`expected0` are what the out-parameters hold on entry. -/
def greedy_balance (signed : Bool) (servers : List ServerInfo) (now : ℚ) (request : List Nat)
    (chosen0 : Nat) (expected0 : ℚ) : Balance :=
  let servers1 := servers.map (decay now)
  let req_type := charVal signed (request.getD 0 0)
  let duration := charVal signed (request.getD 1 0) - 48
  let sel := select_loop req_type duration servers1 0 ⟨-1, chosen0, expected0⟩
  ⟨assign servers1 sel.chosen_server sel.expected_time now, sel.chosen_server, sel.expected_time⟩

/-- Lines 46-65 of `main`: the registry after start-up, given the sockets the
three connects returned and the three clock readings. -/
def main_init (socks : Nat → Int) (clock : Nat → ℚ) : List ServerInfo :=
  (List.range MAX_SERVERS).map fun i =>
    { socket := socks i
      ip := lit (["192.168.0.101", "192.168.0.102", "192.168.0.103"].getD i "")
      port := 80
      type := lit (["VIDEO", "VIDEO", "MUSIC"].getD i "")
      expected_time := 0
      last_update := clock i }

/-! ## The network, as seen by one run of `handle_request` -/

/-- Which member of `ThreadArgs` a socket call is made on. -/
inductive Peer
  | server
  | client
deriving DecidableEq

/-- A call that leaves the process. -/
inductive Event
  | send (p : Peer) (fd : Int) (data : List Nat)
  | recv (p : Peer) (fd : Int) (cap : Nat)
  | close (p : Peer) (fd : Int)
  | socket
  | connect (fd : Int) (ip : List Nat) (port : Int)
  | free
deriving DecidableEq

/-- The environment: what each call returns, as a function of the calls made so
far (the call being answered is the last entry). `ret` answers `send`, `socket`
and `connect`; `recv` answers `recv`, with `none` for an error and `some bs` for
the bytes delivered (none at all when the peer has closed). -/
structure World where
  ret : List Event → Int
  recv : List Event → Option (List Nat)

/-- A call of `send(fd, data, len, 0)`: its return value and the extended history. -/
def sys_send (w : World) (tr : List Event) (p : Peer) (fd : Int) (data : List Nat) :
    Int × List Event :=
  (w.ret (tr ++ [Event.send p fd data]), tr ++ [Event.send p fd data])

/-- A call of `recv(fd, buffer, cap, 0)`: its return value, the buffer afterwards and
the extended history. -/
def sys_recv (w : World) (tr : List Event) (p : Peer) (fd : Int) (buffer : List Nat) (cap : Nat) :
    Int × List Nat × List Event :=
  match w.recv (tr ++ [Event.recv p fd cap]) with
  | none => (-1, buffer, tr ++ [Event.recv p fd cap])
  | some bs =>
    (((bs.take cap).length : Nat), bs.take cap ++ buffer.drop (bs.take cap).length,
      tr ++ [Event.recv p fd cap])

/-- The result of `connect_to_server`: the returned descriptor and the history. -/
structure Connect where
  sock : Int
  trace : List Event

/-- The function `connect_to_server` (lines 257-274), run after the calls `tr`. -/
def connect_to_server (w : World) (tr : List Event) (ip : List Nat) (port : Int) : Connect :=
  let sock := w.ret (tr ++ [Event.socket])
  if sock < 0 then ⟨-1, tr ++ [Event.socket]⟩
  else
    let tr2 := tr ++ [Event.socket, Event.connect sock (c_str ip) (port % 65536)]
    if w.ret tr2 ≠ 0 then ⟨-1, tr2 ++ [Event.close Peer.server sock]⟩
    else ⟨sock, tr2⟩

/-- The state one run of `handle_request` ends in: the global registry, the
`ThreadArgs` as they were when freed, `buffer[]`, and the calls made. -/
structure Run where
  servers : List ServerInfo
  targs : ThreadArgs
  buffer : List Nat
  trace : List Event

/-- The label `cleanup` (lines 210-213). -/
def cleanup (servers : List ServerInfo) (targs : ThreadArgs) (buffer : List Nat)
    (tr : List Event) : Run :=
  ⟨servers, targs, buffer, tr ++ [Event.close Peer.client targs.client_socket, Event.free]⟩

/-- Lines 202-208 followed by `cleanup`: terminate the buffer and relay its first
`n` bytes to the client; the result of that `send` is only logged. -/
def relay (w : World) (servers : List ServerInfo) (targs : ThreadArgs) (buffer : List Nat)
    (n : Nat) (tr : List Event) : Run :=
  let buffer1 := buffer.set n 0
  cleanup servers targs buffer1 (sys_send w tr Peer.client targs.client_socket (buffer1.take n)).2

/-- The bytes `send(..., targs->request, strlen(targs->request), 0)` transmits.
The scan of `strlen` starts at `request[0]`; when the ten-byte array holds no NUL
it leaves the array (undefined behaviour in C) and runs on through `server_ip`,
the next member of the struct, and then through `after`, the memory behind it. -/
def request_bytes (targs : ThreadArgs) (after : List Nat) : List Nat :=
  c_str (targs.request ++ targs.server_ip ++ after)

/-- The function `handle_request` (lines 176-214). `buffer` is what `buffer[]` holds on
entry; `servers` is the global registry. -/
def handle_request (w : World) (servers : List ServerInfo) (targs : ThreadArgs)
    (buffer after : List Nat) : Run :=
  let s1 := sys_send w [] Peer.server targs.server_socket (request_bytes targs after)
  if s1.1 < 0 then cleanup servers targs buffer s1.2
  else
    let r1 := sys_recv w s1.2 Peer.server targs.server_socket buffer (BUFFER_SIZE - 1)
    if r1.1 ≤ 0 then
      let tr3 := r1.2.2 ++ [Event.close Peer.server targs.server_socket]
      let conn := connect_to_server w tr3 targs.server_ip targs.server_port
      let targs1 := { targs with server_socket := conn.sock }
      if targs1.server_socket < 0 then cleanup servers targs1 r1.2.1 conn.trace
      else
        let s2 := sys_send w conn.trace Peer.server targs1.server_socket (request_bytes targs1 after)
        if s2.1 < 0 then cleanup servers targs1 r1.2.1 s2.2
        else
          let r2 := sys_recv w s2.2 Peer.server targs1.server_socket r1.2.1 (BUFFER_SIZE - 1)
          if r2.1 ≤ 0 then cleanup servers targs1 r2.2.1 r2.2.2
          else relay w servers targs1 r2.2.1 r2.1.toNat r2.2.2
    else relay w servers targs r1.2.1 r1.1.toNat r1.2.2

/-- Lines 154-158 of `main`: the `ThreadArgs` handed to the thread, `s` being
`servers[chosen_server]` and `request` the contents of `request[]`. -/
def main_thread_args (client_socket : Int) (request : List Nat) (s : ServerInfo) : ThreadArgs :=
  { client_socket := client_socket
    server_socket := s.socket
    request := strncpy request 10
    server_ip := strncpy s.ip 16
    server_port := s.port }

/-! ## The vocabulary of the specification -/

/-- The class of a backend. -/
inductive ServerClass
  | VIDEO
  | MUSIC
deriving DecidableEq

/-- The category of a request. -/
inductive Category
  | M
  | V
  | P
deriving DecidableEq

/-- The wire code of a category. -/
def Category.code : Category → Nat
  | Category.M => 77
  | Category.V => 86
  | Category.P => 80

/-- The class of a backend: `VIDEO` when its `type` string compares equal to
"VIDEO" (line 235), `MUSIC` otherwise (the `else` branch of line 237). -/
def class_of (s : ServerInfo) : ServerClass :=
  if strcmp s.type (lit "VIDEO") = 0 then ServerClass.VIDEO else ServerClass.MUSIC

/-- The weight table of the specification. -/
def spec_weight : Category → ServerClass → ℚ
  | Category.M, ServerClass.VIDEO => 2
  | Category.V, ServerClass.VIDEO => 1
  | Category.P, ServerClass.VIDEO => 1
  | Category.M, ServerClass.MUSIC => 1
  | Category.V, ServerClass.MUSIC => 3
  | Category.P, ServerClass.MUSIC => 2

/-- The decayed load of the specification: `max(0, expectedLoad - (now - lastUpdate))`. -/
def decayed_load (now : ℚ) (s : ServerInfo) : ℚ :=
  max 0 (s.expected_time - (now - s.last_update))

/-- The candidate of the specification: `decayedLoad + duration * weight(category, class)`. -/
def candidate (now : ℚ) (cat : Category) (dur : Nat) (s : ServerInfo) : ℚ :=
  decayed_load now s + (dur : ℚ) * spec_weight cat (class_of s)

/-- A valid request: byte 0 is the code of `cat`, byte 1 the digit of `dur`, and
`dur` lies in 1..9. -/
def ValidRequest (request : List Nat) (cat : Category) (dur : Nat) : Prop :=
  request[0]? = some cat.code ∧ request[1]? = some (48 + dur) ∧ 1 ≤ dur ∧ dur ≤ 9


/-! ## Observations on a run of `handle_request` -/

/-- The payloads handed to `send` on the client socket, in order. -/
def client_bytes : List Event → List (List Nat)
  | [] => []
  | Event.send Peer.client _ d :: rest => d :: client_bytes rest
  | _ :: rest => client_bytes rest

/-- The bytes a `recv` delivers when it is answered at history `hist` with room
for `cap` bytes (none on an error). -/
def delivered (w : World) (hist : List Event) (cap : Nat) : List Nat :=
  match w.recv hist with
  | none => []
  | some bs => bs.take cap

/-- The non-empty byte strings the backend receives of the calls `tr` returned,
in order; `pre` is the history before `tr`. -/
def backend_replies (w : World) : List Event → List Event → List (List Nat)
  | _, [] => []
  | pre, Event.recv Peer.server fd cap :: rest =>
    (if delivered w (pre ++ [Event.recv Peer.server fd cap]) cap = [] then []
      else [delivered w (pre ++ [Event.recv Peer.server fd cap]) cap])
      ++ backend_replies w (pre ++ [Event.recv Peer.server fd cap]) rest
  | pre, e :: rest => backend_replies w (pre ++ [e]) rest

/-- The number of `send` calls on the backend socket. -/
def server_sends (tr : List Event) : Nat :=
  tr.countP fun e => match e with
    | Event.send Peer.server _ _ => true
    | _ => false

/-- The number of `recv` calls on the backend socket. -/
def server_recvs (tr : List Event) : Nat :=
  tr.countP fun e => match e with
    | Event.recv Peer.server _ _ => true
    | _ => false

/-- The number of connection attempts: each call of `connect_to_server` makes
exactly one `socket` call. -/
def reconnects (tr : List Event) : Nat :=
  tr.countP fun e => match e with
    | Event.socket => true
    | _ => false

/-- The number of `close` calls on the client socket. -/
def client_closes (tr : List Event) : Nat :=
  tr.countP fun e => match e with
    | Event.close Peer.client _ => true
    | _ => false

/-- The history after the first `send` to the backend (line 181). -/
def hist_send1 (targs : ThreadArgs) (after : List Nat) : List Event :=
  [Event.send Peer.server targs.server_socket (request_bytes targs after)]

/-- The history after the first `recv` from the backend (line 187). -/
def hist_recv1 (targs : ThreadArgs) (after : List Nat) : List Event :=
  hist_send1 targs after ++ [Event.recv Peer.server targs.server_socket (BUFFER_SIZE - 1)]

/-- The history after the stale backend socket was closed (line 190). -/
def hist_close (targs : ThreadArgs) (after : List Nat) : List Event :=
  hist_recv1 targs after ++ [Event.close Peer.server targs.server_socket]

/-- The call of `connect_to_server` at line 193. -/
def reconnect (w : World) (targs : ThreadArgs) (after : List Nat) : Connect :=
  connect_to_server w (hist_close targs after) targs.server_ip targs.server_port

/-- The history after the second `send` to the backend (line 195). -/
def hist_send2 (w : World) (targs : ThreadArgs) (after : List Nat) : List Event :=
  (reconnect w targs after).trace
    ++ [Event.send Peer.server (reconnect w targs after).sock (request_bytes targs after)]

/-- The history after the second `recv` from the backend (line 196). -/
def hist_recv2 (w : World) (targs : ThreadArgs) (after : List Nat) : List Event :=
  hist_send2 w targs after
    ++ [Event.recv Peer.server (reconnect w targs after).sock (BUFFER_SIZE - 1)]

/-- The two calls of the label `cleanup`. -/
def cleanup_calls (targs : ThreadArgs) : List Event :=
  [Event.close Peer.client targs.client_socket, Event.free]

/-! ## Sample inputs -/

/-- A network in which every call fails. -/
def world_down : World := ⟨fun _ => -1, fun _ => none⟩

/-- A network whose backend connection has dropped: the first `recv` fails, every
other call succeeds, `socket` returns descriptor 7 and the second `recv`
delivers "OK". -/
def world_dropped : World :=
  ⟨fun h => if h.length = 4 then 7 else 0, fun h => if h.length = 2 then none else some [79, 75]⟩

/-- A network that answers the first `recv` with "OK". -/
def world_up : World := ⟨fun _ => 0, fun _ => some [79, 75]⟩

/-- Backend B0 as `main` sets it up, on descriptor 4. -/
def sample_backend : ServerInfo := ⟨4, lit "192.168.0.101", 80, lit "VIDEO", 5, 10⟩

/-- The registry after start-up with descriptors 3, 4, 5 and the clock at 0. -/
def sample_servers : List ServerInfo := main_init (fun i => 3 + (i : Int)) (fun _ => 0)

/-- The contents of `request[]` after the client sent "V5". -/
def sample_request : List Nat := main_request_buffer (lit "V5") []

/-- The contents of `request[]` after the client sent "M3". -/
def sample_request2 : List Nat := main_request_buffer (lit "M3") []

/-- The `ThreadArgs` of client descriptor 9 for the request "V5" on `sample_backend`. -/
def sample_targs : ThreadArgs := main_thread_args 9 sample_request sample_backend

/-! ## Lemmas on the estimator -/

theorem charVal_ascii (signed : Bool) (b : Nat) (h : b < 128) : charVal signed b = (b : Int) := by
  unfold charVal
  have h1 : b % 256 = b := Nat.mod_eq_of_lt (by omega)
  rw [h1]
  have h2 : ¬ 128 ≤ b := by omega
  simp [h2]

theorem decay_expected_time (now : ℚ) (s : ServerInfo) :
    (decay now s).expected_time = decayed_load now s := by
  unfold decay decayed_load
  simp only
  split
  · rename_i h
    rw [max_eq_right]
    linarith
  · rename_i h
    rw [max_eq_left]
    linarith

theorem decayed_load_nonneg (now : ℚ) (s : ServerInfo) : 0 ≤ decayed_load now s :=
  le_max_left _ _

theorem weight_decay (now : ℚ) (s : ServerInfo) (cat : Category) (signed : Bool) :
    weight (decay now s) (charVal signed cat.code) = spec_weight cat (class_of s) := by
  have hc : charVal signed cat.code = (cat.code : Int) := by
    apply charVal_ascii
    cases cat <;> simp [Category.code]
  rw [hc]
  unfold weight class_of decay
  by_cases h : strcmp s.type (lit "VIDEO") = 0
  · cases cat <;> simp [h, Category.code, spec_weight]
  · cases cat <;> simp [h, Category.code, spec_weight]

theorem spec_weight_pos (cat : Category) (c : ServerClass) : 1 ≤ spec_weight cat c := by
  cases cat <;> cases c <;> simp [spec_weight]

theorem total_time_decay (signed : Bool) (now : ℚ) (s : ServerInfo) (cat : Category) (dur : Nat)
    (hd : dur ≤ 9) :
    total_time (charVal signed cat.code) (charVal signed (48 + dur) - 48) (decay now s)
      = candidate now cat dur s := by
  have hc : charVal signed (48 + dur) = ((48 + dur : Nat) : Int) := charVal_ascii _ _ (by omega)
  unfold total_time candidate
  rw [weight_decay, decay_expected_time, hc]
  push_cast
  ring

theorem candidate_nonneg (now : ℚ) (cat : Category) (dur : Nat) (s : ServerInfo) :
    0 ≤ candidate now cat dur s := by
  unfold candidate
  have h1 := decayed_load_nonneg now s
  have h2 := spec_weight_pos cat (class_of s)
  have h3 : (0 : ℚ) ≤ (dur : ℚ) := Nat.cast_nonneg dur
  nlinarith

theorem select_loop_snoc (rt d : Int) (l : List ServerInfo) (a : ServerInfo) (i : Nat)
    (st : Selection) :
    select_loop rt d (l ++ [a]) i st = select_step rt d (select_loop rt d l i st) (i + l.length) a := by
  induction l generalizing i st with
  | nil => simp [select_loop]
  | cons b l ih =>
    show select_loop rt d (l ++ [a]) (i + 1) (select_step rt d st i b) = _
    rw [ih]
    simp only [select_loop, List.length_cons]
    congr 1
    omega

/-- What the selection loop has established once it has seen the servers `l`:
the chosen index points at a server of least `total_time`, and every server
before it is strictly worse. -/
theorem select_loop_best (rt d : Int) (l : List ServerInfo) (st0 : Selection)
    (hpos : ∀ t ∈ l, 0 ≤ total_time rt d t) (h0 : st0.min_time < 0) :
    (l = [] ∧ select_loop rt d l 0 st0 = st0) ∨
    ∃ s, l[(select_loop rt d l 0 st0).chosen_server]? = some s ∧
      (select_loop rt d l 0 st0).min_time = total_time rt d s ∧
      (select_loop rt d l 0 st0).expected_time = total_time rt d s ∧
      (∀ (j : Nat) (t : ServerInfo), l[j]? = some t → total_time rt d s ≤ total_time rt d t) ∧
      (∀ (j : Nat) (t : ServerInfo), j < (select_loop rt d l 0 st0).chosen_server → l[j]? = some t →
        total_time rt d s < total_time rt d t) := by
  induction l using List.reverseRecOn with
  | nil => left; simp [select_loop]
  | append_singleton l a ih =>
    right
    have hposl : ∀ t ∈ l, 0 ≤ total_time rt d t := fun t ht => hpos t (by simp [ht])
    have hposa : 0 ≤ total_time rt d a := hpos a (by simp)
    rw [select_loop_snoc]
    simp only [Nat.zero_add]
    rcases ih hposl with ⟨hnil, hst⟩ | ⟨s, hs, hmin, hexp, hle, hlt⟩
    · subst hnil
      rw [hst]
      simp only [select_step, h0, true_or, if_true, List.length_nil, List.nil_append]
      refine ⟨a, by simp, rfl, rfl, ?_, ?_⟩
      · intro j t hj
        cases j with
        | zero => simp at hj; subst hj; exact le_refl _
        | succ j => simp at hj
      · intro j t hj
        omega
    · have hc : (select_loop rt d l 0 st0).chosen_server < l.length := by
        rcases Nat.lt_or_ge (select_loop rt d l 0 st0).chosen_server l.length with h | h
        · exact h
        · rw [List.getElem?_eq_none h] at hs
          cases hs
      have hnn : ¬ (select_loop rt d l 0 st0).min_time < 0 := by
        rw [hmin]
        have := hposl s (List.getElem?_mem hs)
        linarith
      by_cases hcmp : total_time rt d a < (select_loop rt d l 0 st0).min_time
      · simp only [select_step, hcmp, or_true, if_true]
        refine ⟨a, by simp, rfl, rfl, ?_, ?_⟩
        · intro j t hj
          rcases Nat.lt_or_ge j l.length with h | h
          · rw [List.getElem?_append_left h] at hj
            have := hle j t hj
            rw [hmin] at hcmp
            linarith
          · rw [List.getElem?_append_right h] at hj
            have hj0 : j - l.length = 0 := by
              rcases Nat.eq_zero_or_pos (j - l.length) with h0 | h0
              · exact h0
              · rw [List.getElem?_eq_none (by simp only [List.length_singleton]; omega)] at hj
                cases hj
            rw [hj0] at hj
            simp at hj
            subst hj
            exact le_refl _
        · intro j t hjl hj
          rw [List.getElem?_append_left hjl] at hj
          have := hle j t hj
          rw [hmin] at hcmp
          linarith
      · simp only [select_step, hcmp, hnn, or_self, if_false]
        refine ⟨s, by rw [List.getElem?_append_left hc]; exact hs, hmin, hexp, ?_, ?_⟩
        · intro j t hj
          rcases Nat.lt_or_ge j l.length with h | h
          · rw [List.getElem?_append_left h] at hj
            exact hle j t hj
          · rw [List.getElem?_append_right h] at hj
            have hj0 : j - l.length = 0 := by
              rcases Nat.eq_zero_or_pos (j - l.length) with h0 | h0
              · exact h0
              · rw [List.getElem?_eq_none (by simp only [List.length_singleton]; omega)] at hj
                cases hj
            rw [hj0] at hj
            simp at hj
            subst hj
            rw [hmin] at hcmp
            linarith
        · intro j t hjl hj
          have hjl2 : j < l.length := by omega
          rw [List.getElem?_append_left hjl2] at hj
          exact hlt j t hjl hj

theorem decay_eq (now : ℚ) (t : ServerInfo) :
    decay now t = { t with expected_time := decayed_load now t, last_update := now } := by
  have h := decay_expected_time now t
  unfold decay at h ⊢
  simp only at h ⊢
  rw [h]

theorem request_bytes_of_valid (signed : Bool) (request : List Nat) (cat : Category) (dur : Nat)
    (hv : ValidRequest request cat dur) :
    charVal signed (request.getD 0 0) = charVal signed cat.code ∧
    charVal signed (request.getD 1 0) - 48 = charVal signed (48 + dur) - 48 := by
  obtain ⟨h0, h1, _, _⟩ := hv
  simp [List.getD_eq_getElem?_getD, h0, h1]

/-- The behaviour of `greedy_balance` on a valid request, in the vocabulary of the
specification. -/
theorem greedy_balance_spec (signed : Bool) (servers : List ServerInfo) (now : ℚ)
    (request : List Nat) (chosen0 : Nat) (expected0 : ℚ) (cat : Category) (dur : Nat)
    (hv : ValidRequest request cat dur) (hne : servers ≠ []) :
    ∃ sc, servers[(greedy_balance signed servers now request chosen0 expected0).chosen_server]?
        = some sc ∧
      (greedy_balance signed servers now request chosen0 expected0).expected_time
        = candidate now cat dur sc ∧
      (∀ (j : Nat) (t : ServerInfo), servers[j]? = some t →
        candidate now cat dur sc ≤ candidate now cat dur t) ∧
      (∀ (j : Nat) (t : ServerInfo),
        j < (greedy_balance signed servers now request chosen0 expected0).chosen_server →
        servers[j]? = some t → candidate now cat dur sc < candidate now cat dur t) ∧
      (∀ (j : Nat) (t : ServerInfo), servers[j]? = some t →
        (greedy_balance signed servers now request chosen0 expected0).servers[j]? =
          some { t with
            expected_time :=
              if j = (greedy_balance signed servers now request chosen0 expected0).chosen_server
              then candidate now cat dur t else decayed_load now t
            last_update := now }) := by
  obtain ⟨hrt, hd⟩ := request_bytes_of_valid signed request cat dur hv
  have hdur : dur ≤ 9 := hv.2.2.2
  unfold greedy_balance
  simp only [hrt, hd]
  generalize hst0 : (⟨-1, chosen0, expected0⟩ : Selection) = st0
  have h0 : st0.min_time < 0 := by rw [← hst0]; norm_num
  have htt : ∀ t : ServerInfo,
      total_time (charVal signed cat.code) (charVal signed (48 + dur) - 48) (decay now t)
        = candidate now cat dur t := fun t => total_time_decay signed now t cat dur hdur
  have hpos : ∀ t ∈ servers.map (decay now),
      0 ≤ total_time (charVal signed cat.code) (charVal signed (48 + dur) - 48) t := by
    intro t ht
    obtain ⟨t0, _, rfl⟩ := List.mem_map.mp ht
    rw [htt]
    exact candidate_nonneg now cat dur t0
  rcases select_loop_best (charVal signed cat.code) (charVal signed (48 + dur) - 48)
      (servers.map (decay now)) st0 hpos h0 with ⟨hnil, _⟩ | ⟨s, hs, _, hexp, hle, hlt⟩
  · exact absurd (List.map_eq_nil_iff.mp hnil) hne
  · generalize select_loop (charVal signed cat.code) (charVal signed (48 + dur) - 48)
        (servers.map (decay now)) 0 st0 = sel at hs hexp hle hlt ⊢
    rw [List.getElem?_map] at hs
    obtain ⟨sc, hsc, rfl⟩ := Option.map_eq_some'.mp hs
    rw [htt] at hexp
    refine ⟨sc, hsc, hexp, ?_, ?_, ?_⟩
    · intro j t hj
      have := hle j (decay now t) (by rw [List.getElem?_map, hj]; rfl)
      rwa [htt, htt] at this
    · intro j t hjc hj
      have := hlt j (decay now t) hjc (by rw [List.getElem?_map, hj]; rfl)
      rwa [htt, htt] at this
    · intro j t hj
      have hsel : (servers.map (decay now))[sel.chosen_server]? = some (decay now sc) := by
        rw [List.getElem?_map, hsc]; rfl
      have hclt : sel.chosen_server < (servers.map (decay now)).length := by
        rcases Nat.lt_or_ge sel.chosen_server (servers.map (decay now)).length with h | h
        · exact h
        · rw [List.getElem?_eq_none h] at hsel
          cases hsel
      simp only [assign, hsel]
      rw [List.getElem?_set]
      by_cases hjc : sel.chosen_server = j
      · subst hjc
        rw [hsc] at hj
        cases hj
        simp only [if_true, hclt, hexp]
        rw [decay_eq]
      · have hjc2 : ¬ j = sel.chosen_server := fun h => hjc h.symm
        simp only [hjc, hjc2, if_false]
        rw [List.getElem?_map, hj, Option.map_some', decay_eq]

theorem greedy_balance_length (signed : Bool) (servers : List ServerInfo) (now : ℚ)
    (request : List Nat) (chosen0 : Nat) (expected0 : ℚ) :
    (greedy_balance signed servers now request chosen0 expected0).servers.length
      = servers.length := by
  unfold greedy_balance assign
  simp only
  split <;> simp

theorem lit_VIDEO : lit "VIDEO" = [86, 73, 68, 69, 79] := by decide

theorem lit_MUSIC : lit "MUSIC" = [77, 85, 83, 73, 67] := by decide

theorem lit_V5 : lit "V5" = [86, 53] := by decide

theorem lit_M3 : lit "M3" = [77, 51] := by decide

theorem weight_VIDEO (s : ServerInfo) (rt : Int) (h : s.type = lit "VIDEO") :
    weight s rt = if rt = 77 then 2 else 1 := by
  unfold weight strcmp
  simp [h]

theorem weight_MUSIC (s : ServerInfo) (rt : Int) (h : s.type = lit "MUSIC") :
    weight s rt = if rt = 86 then 3 else if rt = 80 then 2 else 1 := by
  unfold weight strcmp
  rw [h, lit_VIDEO, lit_MUSIC]
  simp [c_str]

theorem main_init_eq (socks : Nat → Int) (clock : Nat → ℚ) :
    main_init socks clock =
      [⟨socks 0, lit "192.168.0.101", 80, lit "VIDEO", 0, clock 0⟩,
       ⟨socks 1, lit "192.168.0.102", 80, lit "VIDEO", 0, clock 1⟩,
       ⟨socks 2, lit "192.168.0.103", 80, lit "MUSIC", 0, clock 2⟩] := by
  simp [main_init, MAX_SERVERS, List.range, List.range.loop]

theorem decay_idle (now : ℚ) (s : ServerInfo) (h0 : s.expected_time = 0)
    (h : s.last_update ≤ now) : decay now s = { s with last_update := now } := by
  unfold decay
  have : ¬ s.expected_time > now - s.last_update := by rw [h0]; linarith
  simp only [this, if_false]
  rw [← h0]

theorem decay_same_instant (now : ℚ) (s : ServerInfo) (h0 : 0 ≤ s.expected_time)
    (h : s.last_update = now) : decay now s = s := by
  unfold decay
  rw [h, sub_self]
  rcases eq_or_lt_of_le h0 with h1 | h1
  · simp only [← h1, gt_iff_lt, lt_self_iff_false, if_false]
    cases s
    simp_all
  · simp only [gt_iff_lt, h1, if_true, sub_zero]
    cases s
    simp_all

theorem request_V5 (g : List Nat) :
    (main_request_buffer (lit "V5") g).getD 0 0 = 86 ∧
    (main_request_buffer (lit "V5") g).getD 1 0 = 53 := by
  simp [main_request_buffer, lit_V5, BUFFER_SIZE]

theorem request_M3 (g : List Nat) :
    (main_request_buffer (lit "M3") g).getD 0 0 = 77 ∧
    (main_request_buffer (lit "M3") g).getD 1 0 = 51 := by
  simp [main_request_buffer, lit_M3, BUFFER_SIZE]

theorem scenario_step1 (signed : Bool) (socks : Nat → Int) (clock : Nat → ℚ) (now : ℚ)
    (g : List Nat) (c0 : Nat) (e0 : ℚ) (hclock : ∀ i, i < MAX_SERVERS → clock i ≤ now) :
    greedy_balance signed (main_init socks clock) now (main_request_buffer (lit "V5") g) c0 e0 =
      ⟨[⟨socks 0, lit "192.168.0.101", 80, lit "VIDEO", 5, now⟩,
        ⟨socks 1, lit "192.168.0.102", 80, lit "VIDEO", 0, now⟩,
        ⟨socks 2, lit "192.168.0.103", 80, lit "MUSIC", 0, now⟩], 0, 5⟩ := by
  have h0 := hclock 0 (by decide)
  have h1 := hclock 1 (by decide)
  have h2 := hclock 2 (by decide)
  unfold greedy_balance
  rw [(request_V5 g).1, (request_V5 g).2, main_init_eq]
  simp only [List.map_cons, List.map_nil]
  rw [decay_idle now _ rfl h0, decay_idle now _ rfl h1, decay_idle now _ rfl h2]
  rw [charVal_ascii signed 86 (by decide), charVal_ascii signed 53 (by decide)]
  simp only [select_loop, select_step, total_time]
  rw [weight_VIDEO _ _ rfl, weight_VIDEO _ _ rfl, weight_MUSIC _ _ rfl]
  norm_num [assign]

theorem scenario_step2 (signed : Bool) (a b c : Int) (ia ib ic : List Nat) (now : ℚ)
    (g : List Nat) (c0 : Nat) (e0 : ℚ) :
    greedy_balance signed
      [⟨a, ia, 80, lit "VIDEO", 5, now⟩, ⟨b, ib, 80, lit "VIDEO", 0, now⟩,
        ⟨c, ic, 80, lit "MUSIC", 0, now⟩] now (main_request_buffer (lit "V5") g) c0 e0 =
      ⟨[⟨a, ia, 80, lit "VIDEO", 5, now⟩, ⟨b, ib, 80, lit "VIDEO", 5, now⟩,
        ⟨c, ic, 80, lit "MUSIC", 0, now⟩], 1, 5⟩ := by
  unfold greedy_balance
  rw [(request_V5 g).1, (request_V5 g).2]
  simp only [List.map_cons, List.map_nil]
  rw [decay_same_instant now _ (by norm_num) rfl, decay_same_instant now _ (le_refl _) rfl,
    decay_same_instant now _ (le_refl _) rfl]
  rw [charVal_ascii signed 86 (by decide), charVal_ascii signed 53 (by decide)]
  simp only [select_loop, select_step, total_time]
  rw [weight_VIDEO _ _ rfl, weight_VIDEO _ _ rfl, weight_MUSIC _ _ rfl]
  norm_num [assign]

theorem scenario_step3 (signed : Bool) (a b c : Int) (ia ib ic : List Nat) (now : ℚ)
    (g : List Nat) (c0 : Nat) (e0 : ℚ) :
    greedy_balance signed
      [⟨a, ia, 80, lit "VIDEO", 5, now⟩, ⟨b, ib, 80, lit "VIDEO", 5, now⟩,
        ⟨c, ic, 80, lit "MUSIC", 0, now⟩] now (main_request_buffer (lit "M3") g) c0 e0 =
      ⟨[⟨a, ia, 80, lit "VIDEO", 5, now⟩, ⟨b, ib, 80, lit "VIDEO", 5, now⟩,
        ⟨c, ic, 80, lit "MUSIC", 3, now⟩], 2, 3⟩ := by
  unfold greedy_balance
  rw [(request_M3 g).1, (request_M3 g).2]
  simp only [List.map_cons, List.map_nil]
  rw [decay_same_instant now _ (by norm_num) rfl, decay_same_instant now _ (by norm_num) rfl,
    decay_same_instant now _ (le_refl _) rfl]
  rw [charVal_ascii signed 77 (by decide), charVal_ascii signed 51 (by decide)]
  simp only [select_loop, select_step, total_time]
  rw [weight_VIDEO _ _ rfl, weight_VIDEO _ _ rfl, weight_MUSIC _ _ rfl]
  norm_num [assign]

theorem ne_nil_of_length (servers : List ServerInfo) (hlen : servers.length = MAX_SERVERS) :
    servers ≠ [] := by
  intro h
  rw [h] at hlen
  simp [MAX_SERVERS] at hlen

theorem sample_request_valid : ValidRequest sample_request Category.V 5 :=
  ⟨by decide, by decide, by decide, by decide⟩

theorem sample_request2_valid : ValidRequest sample_request2 Category.M 3 :=
  ⟨by decide, by decide, by decide, by decide⟩

/-! ## The estimator: claims -/

/-- C1: on a registry of `MAX_SERVERS` backends and a valid request, the index
`greedy_balance` returns in `chosen_server` is the arg-min of
`candidate = decayedLoad + duration * weight(category, class)` over all backends,
ties going to the lowest index: no backend has a strictly smaller candidate and
no backend of lower index has an equal one. -/
theorem greedy_balance_argmin (signed : Bool) (servers : List ServerInfo) (now : ℚ)
    (request : List Nat) (chosen0 : Nat) (expected0 : ℚ) (cat : Category) (dur : Nat)
    (hlen : servers.length = MAX_SERVERS) (hv : ValidRequest request cat dur) :
    ∃ sc, servers[(greedy_balance signed servers now request chosen0 expected0).chosen_server]?
        = some sc ∧
      (∀ (j : Nat) (t : ServerInfo), servers[j]? = some t →
        candidate now cat dur sc ≤ candidate now cat dur t) ∧
      (∀ (j : Nat) (t : ServerInfo),
        j < (greedy_balance signed servers now request chosen0 expected0).chosen_server →
        servers[j]? = some t → candidate now cat dur sc < candidate now cat dur t) := by
  obtain ⟨sc, h1, _, h3, h4, _⟩ := greedy_balance_spec signed servers now request chosen0
    expected0 cat dur hv (ne_nil_of_length servers hlen)
  exact ⟨sc, h1, h3, h4⟩

theorem greedy_balance_argmin_witness :
    sample_servers.length = MAX_SERVERS ∧ ValidRequest sample_request Category.V 5 ∧
    ∃ sc, sample_servers[(greedy_balance true sample_servers 10 sample_request 0 0).chosen_server]?
        = some sc ∧
      (∀ (j : Nat) (t : ServerInfo), sample_servers[j]? = some t →
        candidate 10 Category.V 5 sc ≤ candidate 10 Category.V 5 t) ∧
      (∀ (j : Nat) (t : ServerInfo),
        j < (greedy_balance true sample_servers 10 sample_request 0 0).chosen_server →
        sample_servers[j]? = some t → candidate 10 Category.V 5 sc < candidate 10 Category.V 5 t) :=
  ⟨rfl, sample_request_valid,
    greedy_balance_argmin true sample_servers 10 sample_request 0 0 Category.V 5 rfl
      sample_request_valid⟩

/-- C3: `expected_time ≥ 0` is an invariant of the registry. It holds after
start-up, where every `expected_time` is 0, and after `greedy_balance` has run on any
registry of `MAX_SERVERS` backends, at any time `now` (earlier than a
`last_update` included) and for any valid request. -/
theorem expected_time_nonneg (signed : Bool) (socks : Nat → Int) (clock : Nat → ℚ)
    (servers : List ServerInfo) (now : ℚ) (request : List Nat) (chosen0 : Nat) (expected0 : ℚ)
    (cat : Category) (dur : Nat)
    (hlen : servers.length = MAX_SERVERS) (hv : ValidRequest request cat dur) :
    (∀ s ∈ main_init socks clock, s.expected_time = 0 ∧ 0 ≤ s.expected_time) ∧
    (∀ s ∈ (greedy_balance signed servers now request chosen0 expected0).servers,
      0 ≤ s.expected_time) := by
  constructor
  · intro s hs
    rw [main_init_eq] at hs
    simp only [List.mem_cons, List.mem_singleton, List.mem_nil_iff, or_false] at hs
    rcases hs with rfl | rfl | rfl <;> exact ⟨rfl, le_refl _⟩
  · intro s hs
    obtain ⟨_, _, _, _, _, hupd⟩ := greedy_balance_spec signed servers now request chosen0
      expected0 cat dur hv (ne_nil_of_length servers hlen)
    obtain ⟨j, hj⟩ := List.mem_iff_getElem?.mp hs
    have hjlt : j < servers.length := by
      rw [← greedy_balance_length signed servers now request chosen0 expected0]
      rcases Nat.lt_or_ge j
        (greedy_balance signed servers now request chosen0 expected0).servers.length with h | h
      · exact h
      · rw [List.getElem?_eq_none h] at hj
        cases hj
    have ht : servers[j]? = some (servers[j]) := List.getElem?_eq_getElem hjlt
    rw [hupd j _ ht] at hj
    cases hj
    simp only
    split
    · exact candidate_nonneg _ _ _ _
    · exact decayed_load_nonneg _ _

theorem expected_time_nonneg_witness :
    sample_servers.length = MAX_SERVERS ∧ ValidRequest sample_request Category.V 5 ∧
    (∀ s ∈ main_init (fun _ => 3) (fun _ => 0), s.expected_time = 0 ∧ 0 ≤ s.expected_time) ∧
    (∀ s ∈ (greedy_balance true sample_servers (-7) sample_request 0 0).servers,
      0 ≤ s.expected_time) :=
  ⟨rfl, sample_request_valid,
    expected_time_nonneg true (fun _ => 3) (fun _ => 0) sample_servers (-7) sample_request 0 0
      Category.V 5 rfl sample_request_valid⟩

/-- C4: on a registry of `MAX_SERVERS` backends and a valid request, the registry
after `greedy_balance` is the reference update of the specification. Every backend
has `last_update = now`; a backend other than the chosen one has
`expected_time = max(0, old - (now - oldLastUpdate))`; the chosen one has that
value plus `duration * weight(category, class)`, which is also what is returned
in `expected_time`; `socket`, `ip`, `port` and `type` are unchanged. -/
theorem greedy_balance_reference_update (signed : Bool) (servers : List ServerInfo) (now : ℚ)
    (request : List Nat) (chosen0 : Nat) (expected0 : ℚ) (cat : Category) (dur : Nat)
    (hlen : servers.length = MAX_SERVERS) (hv : ValidRequest request cat dur) :
    (greedy_balance signed servers now request chosen0 expected0).servers.length
      = servers.length ∧
    (∀ (j : Nat) (t : ServerInfo), servers[j]? = some t →
      (greedy_balance signed servers now request chosen0 expected0).servers[j]? =
        some { socket := t.socket, ip := t.ip, port := t.port, type := t.type,
               expected_time :=
                 if j = (greedy_balance signed servers now request chosen0 expected0).chosen_server
                 then max 0 (t.expected_time - (now - t.last_update))
                   + (dur : ℚ) * spec_weight cat (class_of t)
                 else max 0 (t.expected_time - (now - t.last_update)),
               last_update := now }) ∧
    (∃ sc, servers[(greedy_balance signed servers now request chosen0 expected0).chosen_server]?
        = some sc ∧
      (greedy_balance signed servers now request chosen0 expected0).expected_time
        = max 0 (sc.expected_time - (now - sc.last_update))
          + (dur : ℚ) * spec_weight cat (class_of sc)) := by
  obtain ⟨sc, h1, h2, _, _, h5⟩ := greedy_balance_spec signed servers now request chosen0
    expected0 cat dur hv (ne_nil_of_length servers hlen)
  refine ⟨greedy_balance_length signed servers now request chosen0 expected0, ?_, sc, h1, ?_⟩
  · intro j t hj
    rw [h5 j t hj]
    rfl
  · rw [h2]
    rfl

theorem greedy_balance_reference_update_witness :
    sample_servers.length = MAX_SERVERS ∧ ValidRequest sample_request Category.V 5 ∧
    (greedy_balance true sample_servers 10 sample_request 0 0).servers.length
      = sample_servers.length ∧
    (∀ (j : Nat) (t : ServerInfo), sample_servers[j]? = some t →
      (greedy_balance true sample_servers 10 sample_request 0 0).servers[j]? =
        some { socket := t.socket, ip := t.ip, port := t.port, type := t.type,
               expected_time :=
                 if j = (greedy_balance true sample_servers 10 sample_request 0 0).chosen_server
                 then max 0 (t.expected_time - (10 - t.last_update))
                   + ((5 : Nat) : ℚ) * spec_weight Category.V (class_of t)
                 else max 0 (t.expected_time - (10 - t.last_update)),
               last_update := 10 }) ∧
    (∃ sc, sample_servers[(greedy_balance true sample_servers 10 sample_request 0 0).chosen_server]?
        = some sc ∧
      (greedy_balance true sample_servers 10 sample_request 0 0).expected_time
        = max 0 (sc.expected_time - (10 - sc.last_update))
          + ((5 : Nat) : ℚ) * spec_weight Category.V (class_of sc)) :=
  ⟨rfl, sample_request_valid,
    greedy_balance_reference_update true sample_servers 10 sample_request 0 0 Category.V 5 rfl
      sample_request_valid⟩

/-- C5: when `greedy_balance` runs with a valid request at time `t` and then again
with a valid request at the same time `t`, the second call leaves the
`expected_time` of every backend it does not choose as the first call left it,
and raises that of the backend it chooses by exactly
`duration * weight(category, class)` of the second request. -/
theorem greedy_balance_same_instant (signed : Bool) (servers : List ServerInfo) (t : ℚ)
    (req1 req2 : List Nat) (c0 c1 : Nat) (e0 e1 : ℚ) (cat1 cat2 : Category) (dur1 dur2 : Nat)
    (hlen : servers.length = MAX_SERVERS)
    (hv1 : ValidRequest req1 cat1 dur1) (hv2 : ValidRequest req2 cat2 dur2) :
    ∀ (j : Nat) (s1 : ServerInfo),
      (greedy_balance signed servers t req1 c0 e0).servers[j]? = some s1 →
      ∃ s2,
        (greedy_balance signed (greedy_balance signed servers t req1 c0 e0).servers t req2
          c1 e1).servers[j]? = some s2 ∧
        s2.expected_time =
          if j = (greedy_balance signed (greedy_balance signed servers t req1 c0 e0).servers t
              req2 c1 e1).chosen_server
          then s1.expected_time + (dur2 : ℚ) * spec_weight cat2 (class_of s1)
          else s1.expected_time := by
  intro j s1 hj
  have hlen1 := greedy_balance_length signed servers t req1 c0 e0
  have hne1 : (greedy_balance signed servers t req1 c0 e0).servers ≠ [] :=
    ne_nil_of_length _ (hlen1.trans hlen)
  obtain ⟨_, _, _, _, _, hupd1⟩ := greedy_balance_spec signed servers t req1 c0 e0 cat1 dur1 hv1
    (ne_nil_of_length servers hlen)
  obtain ⟨_, _, _, _, _, hupd2⟩ := greedy_balance_spec signed
    (greedy_balance signed servers t req1 c0 e0).servers t req2 c1 e1 cat2 dur2 hv2 hne1
  have hjlt : j < servers.length := by
    rw [← hlen1]
    rcases Nat.lt_or_ge j (greedy_balance signed servers t req1 c0 e0).servers.length with h | h
    · exact h
    · rw [List.getElem?_eq_none h] at hj
      cases hj
  have ht : servers[j]? = some (servers[j]) := List.getElem?_eq_getElem hjlt
  have hs1 := hupd1 j _ ht
  rw [hj] at hs1
  have hs1e : 0 ≤ s1.expected_time := by
    cases hs1
    simp only
    split
    · exact candidate_nonneg _ _ _ _
    · exact decayed_load_nonneg _ _
  have hs1u : s1.last_update = t := by
    cases hs1
    rfl
  have hdl : decayed_load t s1 = s1.expected_time := by
    unfold decayed_load
    rw [hs1u, sub_self, sub_zero]
    exact max_eq_right hs1e
  refine ⟨_, hupd2 j s1 hj, ?_⟩
  simp only [candidate, hdl]

theorem greedy_balance_same_instant_witness :
    sample_servers.length = MAX_SERVERS ∧ ValidRequest sample_request Category.V 5 ∧
    ValidRequest sample_request2 Category.M 3 ∧
    ∀ (j : Nat) (s1 : ServerInfo),
      (greedy_balance true sample_servers 10 sample_request 0 0).servers[j]? = some s1 →
      ∃ s2,
        (greedy_balance true (greedy_balance true sample_servers 10 sample_request 0 0).servers 10
          sample_request2 0 0).servers[j]? = some s2 ∧
        s2.expected_time =
          if j = (greedy_balance true
              (greedy_balance true sample_servers 10 sample_request 0 0).servers 10
              sample_request2 0 0).chosen_server
          then s1.expected_time + ((3 : Nat) : ℚ) * spec_weight Category.M (class_of s1)
          else s1.expected_time :=
  ⟨rfl, sample_request_valid, sample_request2_valid,
    greedy_balance_same_instant true sample_servers 10 sample_request sample_request2 0 0 0 0
      Category.V Category.M 5 3 rfl sample_request_valid sample_request2_valid⟩

/-- C6: from the start-up registry (B0 = VIDEO, B1 = VIDEO, B2 = MUSIC, every
`expected_time` 0), with the three calls reading the same clock value `now` (not
before the start-up readings), `greedy_balance` on "V5", "V5", "M3" chooses B0
returning 5, then B1 returning 5, then B2 returning 3, and the loads end as
(5, 5, 3). -/
theorem scenario_V5_V5_M3 (signed : Bool) (socks : Nat → Int) (clock : Nat → ℚ) (now : ℚ)
    (g1 g2 g3 : List Nat) (c1 c2 c3 : Nat) (e1 e2 e3 : ℚ)
    (hclock : ∀ i, i < MAX_SERVERS → clock i ≤ now) :
    (greedy_balance signed (main_init socks clock) now (main_request_buffer (lit "V5") g1)
      c1 e1).chosen_server = 0 ∧
    (greedy_balance signed (main_init socks clock) now (main_request_buffer (lit "V5") g1)
      c1 e1).expected_time = 5 ∧
    (greedy_balance signed
      (greedy_balance signed (main_init socks clock) now (main_request_buffer (lit "V5") g1)
        c1 e1).servers now (main_request_buffer (lit "V5") g2) c2 e2).chosen_server = 1 ∧
    (greedy_balance signed
      (greedy_balance signed (main_init socks clock) now (main_request_buffer (lit "V5") g1)
        c1 e1).servers now (main_request_buffer (lit "V5") g2) c2 e2).expected_time = 5 ∧
    (greedy_balance signed
      (greedy_balance signed
        (greedy_balance signed (main_init socks clock) now (main_request_buffer (lit "V5") g1)
          c1 e1).servers now (main_request_buffer (lit "V5") g2) c2 e2).servers
      now (main_request_buffer (lit "M3") g3) c3 e3).chosen_server = 2 ∧
    (greedy_balance signed
      (greedy_balance signed
        (greedy_balance signed (main_init socks clock) now (main_request_buffer (lit "V5") g1)
          c1 e1).servers now (main_request_buffer (lit "V5") g2) c2 e2).servers
      now (main_request_buffer (lit "M3") g3) c3 e3).expected_time = 3 ∧
    (greedy_balance signed
      (greedy_balance signed
        (greedy_balance signed (main_init socks clock) now (main_request_buffer (lit "V5") g1)
          c1 e1).servers now (main_request_buffer (lit "V5") g2) c2 e2).servers
      now (main_request_buffer (lit "M3") g3) c3 e3).servers.map (fun s => s.expected_time)
      = [5, 5, 3] := by
  rw [scenario_step1 signed socks clock now g1 c1 e1 hclock]
  simp only
  rw [scenario_step2]
  simp only
  rw [scenario_step3]
  simp

theorem scenario_V5_V5_M3_witness :
    (∀ i, i < MAX_SERVERS → (fun _ => (0 : ℚ)) i ≤ 0) ∧
    (greedy_balance true
      (greedy_balance true
        (greedy_balance true (main_init (fun _ => 3) (fun _ => 0)) 0
          (main_request_buffer (lit "V5") []) 0 0).servers 0
        (main_request_buffer (lit "V5") []) 0 0).servers
      0 (main_request_buffer (lit "M3") []) 0 0).servers.map (fun s => s.expected_time)
      = [5, 5, 3] :=
  ⟨fun _ _ => le_refl _,
    (scenario_V5_V5_M3 true (fun _ => 3) (fun _ => 0) 0 [] [] [] 0 0 0 0 0 0
      (fun _ _ => le_refl _)).2.2.2.2.2.2⟩

/-! ## The validator -/

theorem charVal_sub_range (signed : Bool) (d : Nat) (hd : d < 256) :
    (¬ (charVal signed d - 48 < 1 ∨ charVal signed d - 48 > 9)) ↔ (49 ≤ d ∧ d ≤ 57) := by
  unfold charVal
  have h1 : d % 256 = d := Nat.mod_eq_of_lt hd
  rw [h1]
  cases signed
  · simp only [Bool.false_and, Bool.false_eq_true, if_false]
    omega
  · simp only [Bool.true_and, decide_eq_true_eq]
    split <;> omega

theorem charVal_eq_iff (signed : Bool) (c k : Nat) (hc : c < 256) (hk : k < 128) :
    charVal signed c = (k : Int) ↔ c = k := by
  unfold charVal
  have h1 : c % 256 = c := Nat.mod_eq_of_lt hc
  rw [h1]
  cases signed
  · simp only [Bool.false_and, Bool.false_eq_true, if_false]
    omega
  · simp only [Bool.true_and, decide_eq_true_eq]
    split <;> omega

theorem strlen_lt_two (c d : Nat) (rest : List Nat) :
    strlen (c :: d :: rest) < 2 ↔ (c = 0 ∨ d = 0) := by
  unfold strlen c_str
  by_cases hc : c = 0
  · simp [hc]
  · by_cases hd : d = 0
    · simp [List.takeWhile_cons, hc, hd]
    · simp [List.takeWhile_cons, hc, hd]

theorem strlen_short (c : Nat) (rest : List Nat) : strlen (c :: 0 :: rest) < 2 :=
  (strlen_lt_two c 0 rest).mpr (Or.inr rfl)

theorem strlen_empty (rest : List Nat) : strlen (0 :: rest) < 2 := by
  simp [strlen, c_str]

/-- The verdict of `validate_request` on a buffer that starts with the bytes `c`, `d`. -/
theorem validate_request_cons (signed : Bool) (c d : Nat) (rest : List Nat) (d0 : Int)
    (hc : c < 256) (hd : d < 256) :
    ((validate_request signed (c :: d :: rest) d0).is_valid = 1 ↔
      ((c = 77 ∨ c = 86 ∨ c = 80) ∧ 49 ≤ d ∧ d ≤ 57)) ∧
    ((validate_request signed (c :: d :: rest) d0).is_valid = 1 →
      (validate_request signed (c :: d :: rest) d0).duration = (d : Int) - 48) ∧
    ((validate_request signed (c :: d :: rest) d0).is_valid = 0 ∨
      (validate_request signed (c :: d :: rest) d0).is_valid = 1) := by
  have hM := charVal_eq_iff signed c 77 hc (by decide)
  have hV := charVal_eq_iff signed c 86 hc (by decide)
  have hP := charVal_eq_iff signed c 80 hc (by decide)
  have hR := charVal_sub_range signed d hd
  have hcv : charVal signed d = (d : Int) ∨ charVal signed d = (d : Int) - 256 := by
    unfold charVal
    rw [Nat.mod_eq_of_lt hd]
    split
    · right; rfl
    · left; rfl
  have h01 : ¬ ((0 : Int) = 1) := by decide
  by_cases hlen : strlen (c :: d :: rest) < 2
  · have hval : validate_request signed (c :: d :: rest) d0 = ⟨d0, 0⟩ := by
      unfold validate_request
      rw [if_pos hlen]
    have hz := (strlen_lt_two c d rest).mp hlen
    rw [hval]
    refine ⟨⟨fun h => absurd h h01, fun h => ?_⟩, fun h => absurd h h01, Or.inl rfl⟩
    omega
  · by_cases hty : charVal signed c ≠ 77 ∧ charVal signed c ≠ 86 ∧ charVal signed c ≠ 80
    · have hval : validate_request signed (c :: d :: rest) d0
          = ⟨charVal signed d - 48, 0⟩ := by
        unfold validate_request
        rw [if_neg hlen]
        simp only [List.getD_cons_zero, List.getD_cons_succ]
        rw [if_pos hty]
      rw [hval]
      refine ⟨⟨fun h => absurd h h01, fun h => ?_⟩, fun h => absurd h h01, Or.inl rfl⟩
      exfalso
      rcases h.1 with h1 | h1 | h1
      · exact hty.1 (hM.mpr h1)
      · exact hty.2.1 (hV.mpr h1)
      · exact hty.2.2 (hP.mpr h1)
    · have hcode : c = 77 ∨ c = 86 ∨ c = 80 := by
        by_contra hcon
        push_neg at hcon
        exact hty ⟨fun h => hcon.1 (hM.mp h), fun h => hcon.2.1 (hV.mp h),
          fun h => hcon.2.2 (hP.mp h)⟩
      by_cases hdur : charVal signed d - 48 < MIN_DURATION ∨ charVal signed d - 48 > MAX_DURATION
      · have hval : validate_request signed (c :: d :: rest) d0
            = ⟨charVal signed d - 48, 0⟩ := by
          unfold validate_request
          rw [if_neg hlen]
          simp only [List.getD_cons_zero, List.getD_cons_succ]
          rw [if_neg hty, if_pos hdur]
        rw [hval]
        refine ⟨⟨fun h => absurd h h01, fun h => ?_⟩, fun h => absurd h h01, Or.inl rfl⟩
        exact absurd hdur (hR.mpr h.2)
      · have hval : validate_request signed (c :: d :: rest) d0
            = ⟨charVal signed d - 48, 1⟩ := by
          unfold validate_request
          rw [if_neg hlen]
          simp only [List.getD_cons_zero, List.getD_cons_succ]
          rw [if_neg hty, if_neg hdur]
        rw [hval]
        have hdig := hR.mp hdur
        refine ⟨⟨fun _ => ⟨hcode, hdig⟩, fun _ => rfl⟩, fun _ => ?_, Or.inr rfl⟩
        show charVal signed d - 48 = (d : Int) - 48
        rcases hcv with h | h
        · rw [h]
        · exfalso
          apply hdur
          rw [h]
          left
          simp only [MIN_DURATION]
          omega

/-- The verdict of `validate_request` on the buffer `main` fills from the bytes `rx`. -/
theorem validate_request_on_buffer (signed : Bool) (rx garbage : List Nat) (d0 : Int)
    (hb : ∀ b ∈ rx, b < 256) :
    ((validate_request signed (main_request_buffer rx garbage) d0).is_valid = 1 ↔
      ∃ c d tail, rx = c :: d :: tail ∧ (c = 77 ∨ c = 86 ∨ c = 80) ∧ 49 ≤ d ∧ d ≤ 57) ∧
    (∀ c d tail, rx = c :: d :: tail →
      (validate_request signed (main_request_buffer rx garbage) d0).is_valid = 1 →
      (validate_request signed (main_request_buffer rx garbage) d0).duration = (d : Int) - 48 ∧
      1 ≤ (d : Int) - 48 ∧ (d : Int) - 48 ≤ 9) ∧
    ((validate_request signed (main_request_buffer rx garbage) d0).is_valid = 0 ∨
      (validate_request signed (main_request_buffer rx garbage) d0).is_valid = 1) := by
  have h01 : ¬ ((0 : Int) = 1) := by decide
  match rx, hb with
  | [], _ =>
    have hval : validate_request signed (main_request_buffer [] garbage) d0 = ⟨d0, 0⟩ := by
      unfold validate_request
      rw [if_pos]
      exact strlen_empty _
    rw [hval]
    refine ⟨⟨fun h => absurd h h01, ?_⟩, ?_, Or.inl rfl⟩
    · rintro ⟨c, d, tail, h, _⟩
      cases h
    · intro c d tail h
      cases h
  | [c], _ =>
    have hval : validate_request signed (main_request_buffer [c] garbage) d0 = ⟨d0, 0⟩ := by
      unfold validate_request
      rw [if_pos]
      exact strlen_short _ _
    rw [hval]
    refine ⟨⟨fun h => absurd h h01, ?_⟩, ?_, Or.inl rfl⟩
    · rintro ⟨c, d, tail, h, _⟩
      cases h
    · intro c d tail h
      cases h
  | c :: d :: tail, hb =>
    have hc : c < 256 := hb c (by simp)
    have hd : d < 256 := hb d (by simp)
    have hbuf : main_request_buffer (c :: d :: tail) garbage
        = c :: d :: (tail.take 1021 ++ 0 :: garbage.drop ((tail.take 1021).length + 2 + 1)) := by
      simp [main_request_buffer, BUFFER_SIZE]
    rw [hbuf]
    obtain ⟨h1, h2, h3⟩ := validate_request_cons signed c d
      (tail.take 1021 ++ 0 :: garbage.drop ((tail.take 1021).length + 2 + 1)) d0 hc hd
    refine ⟨⟨fun h => ⟨c, d, tail, rfl, h1.mp h⟩, ?_⟩, ?_, h3⟩
    · rintro ⟨c1, d1, t1, heq, hrest⟩
      simp only [List.cons.injEq] at heq
      obtain ⟨rfl, rfl, _⟩ := heq
      exact h1.mpr hrest
    · intro c1 d1 t1 heq hv
      simp only [List.cons.injEq] at heq
      obtain ⟨rfl, rfl, _⟩ := heq
      have hdig := (h1.mp hv).2
      refine ⟨h2 hv, ?_, ?_⟩ <;> omega

/-- C2: for every byte sequence `rx` received from a client, `validate_request` sets
`is_valid = 1` exactly when `rx` has at least two bytes, byte 0 is 'M', 'V' or
'P' and byte 1 is an ASCII digit '1'..'9'; the duration it then outputs is the
value of that digit, which lies in 1..9; otherwise `is_valid` is 0. -/
theorem validate_request_accepts_iff (signed : Bool) (rx garbage : List Nat) (d0 : Int)
    (hb : ∀ b ∈ rx, b < 256) :
    ((validate_request signed (main_request_buffer rx garbage) d0).is_valid = 1 ↔
      ∃ c d tail, rx = c :: d :: tail ∧ (c = 77 ∨ c = 86 ∨ c = 80) ∧ 49 ≤ d ∧ d ≤ 57) ∧
    (∀ c d tail, rx = c :: d :: tail →
      (validate_request signed (main_request_buffer rx garbage) d0).is_valid = 1 →
      (validate_request signed (main_request_buffer rx garbage) d0).duration = (d : Int) - 48 ∧
      1 ≤ (d : Int) - 48 ∧ (d : Int) - 48 ≤ 9) ∧
    ((validate_request signed (main_request_buffer rx garbage) d0).is_valid = 0 ∨
      (validate_request signed (main_request_buffer rx garbage) d0).is_valid = 1) :=
  validate_request_on_buffer signed rx garbage d0 hb

theorem validate_request_accepts_iff_witness :
    (∀ b ∈ [86, 57, 10], b < 256) ∧
    ((validate_request true (main_request_buffer [86, 57, 10] []) 0).is_valid = 1 ↔
      ∃ c d tail, [86, 57, 10] = c :: d :: tail ∧ (c = 77 ∨ c = 86 ∨ c = 80) ∧ 49 ≤ d ∧ d ≤ 57) :=
  ⟨by decide, (validate_request_accepts_iff true [86, 57, 10] [] 0 (by decide)).1⟩

/-! ## The request proxy -/

theorem relay_bytes (bs buffer : List Nat) :
    ((bs ++ buffer.drop bs.length).set bs.length 0).take bs.length = bs := by
  rw [List.set_take, List.take_left, List.set_eq_of_length_le (le_refl _)]

theorem sys_recv_trace (w : World) (tr : List Event) (p : Peer) (fd : Int) (buffer : List Nat)
    (cap : Nat) : (sys_recv w tr p fd buffer cap).2.2 = tr ++ [Event.recv p fd cap] := by
  unfold sys_recv
  split <;> rfl

theorem sys_recv_failed (w : World) (tr : List Event) (p : Peer) (fd : Int) (buffer : List Nat)
    (cap : Nat) :
    (sys_recv w tr p fd buffer cap).1 ≤ 0 ↔ delivered w (tr ++ [Event.recv p fd cap]) cap = [] := by
  unfold sys_recv delivered
  split
  · simp
  · rename_i bs _
    simp only
    constructor
    · intro h
      have : (List.take cap bs).length = 0 := by omega
      exact List.length_eq_zero.mp this
    · intro h
      rw [h]
      simp

theorem cleanup_trace (servers : List ServerInfo) (targs : ThreadArgs) (buffer : List Nat)
    (tr : List Event) : (cleanup servers targs buffer tr).trace = tr ++ cleanup_calls targs := rfl

theorem relay_after_recv (w : World) (servers : List ServerInfo) (targs : ThreadArgs)
    (tr tr2 : List Event) (fd : Int) (buffer : List Nat) (cap : Nat) :
    (relay w servers targs (sys_recv w tr Peer.server fd buffer cap).2.1
      (sys_recv w tr Peer.server fd buffer cap).1.toNat tr2).trace
    = tr2
        ++ Event.send Peer.client targs.client_socket
            (delivered w (tr ++ [Event.recv Peer.server fd cap]) cap)
          :: cleanup_calls targs := by
  unfold relay sys_recv delivered sys_send cleanup cleanup_calls
  split
  · simp
  · rename_i bs _
    simp only [Int.toNat_ofNat, relay_bytes]
    simp

/-- The calls one run of `handle_request` makes, by the answers of the network. -/
theorem handle_request_trace (w : World) (servers : List ServerInfo) (targs : ThreadArgs)
    (buffer after : List Nat) :
    (handle_request w servers targs buffer after).trace =
      if w.ret (hist_send1 targs after) < 0 then hist_send1 targs after ++ cleanup_calls targs
      else if delivered w (hist_recv1 targs after) (BUFFER_SIZE - 1) = [] then
        if (reconnect w targs after).sock < 0 then
          (reconnect w targs after).trace ++ cleanup_calls targs
        else if w.ret (hist_send2 w targs after) < 0 then
          hist_send2 w targs after ++ cleanup_calls targs
        else if delivered w (hist_recv2 w targs after) (BUFFER_SIZE - 1) = [] then
          hist_recv2 w targs after ++ cleanup_calls targs
        else
          hist_recv2 w targs after
            ++ Event.send Peer.client targs.client_socket
                (delivered w (hist_recv2 w targs after) (BUFFER_SIZE - 1))
              :: cleanup_calls targs
      else
        hist_recv1 targs after
          ++ Event.send Peer.client targs.client_socket
              (delivered w (hist_recv1 targs after) (BUFFER_SIZE - 1))
            :: cleanup_calls targs := by
  unfold handle_request
  simp only [sys_recv_failed, sys_recv_trace, relay_after_recv]
  simp only [sys_send, List.nil_append, hist_send1, hist_recv1, hist_close, hist_send2,
    hist_recv2, reconnect, request_bytes]
  split_ifs <;>
    simp only [relay_after_recv, cleanup_trace, cleanup_calls, List.append_assoc,
      List.cons_append, List.nil_append]

theorem handle_request_servers (w : World) (servers : List ServerInfo) (targs : ThreadArgs)
    (buffer after : List Nat) : (handle_request w servers targs buffer after).servers = servers := by
  unfold handle_request
  simp only
  split_ifs <;> rfl

/-- The three ways `connect_to_server` can go. -/
theorem connect_to_server_cases (w : World) (tr : List Event) (ip : List Nat) (port : Int) :
    ((connect_to_server w tr ip port).sock < 0 ∧
      (connect_to_server w tr ip port).trace = tr ++ [Event.socket]) ∨
    ((connect_to_server w tr ip port).sock < 0 ∧
      ∃ fd, (connect_to_server w tr ip port).trace
        = tr ++ [Event.socket, Event.connect fd (c_str ip) (port % 65536),
            Event.close Peer.server fd]) ∨
    (0 ≤ (connect_to_server w tr ip port).sock ∧
      (connect_to_server w tr ip port).trace
        = tr ++ [Event.socket,
            Event.connect (connect_to_server w tr ip port).sock (c_str ip) (port % 65536)]) := by
  unfold connect_to_server
  simp only
  split_ifs with h1 h2
  · left
    exact ⟨show (-1 : Int) < 0 by decide, rfl⟩
  · right; left
    refine ⟨show (-1 : Int) < 0 by decide, w.ret (tr ++ [Event.socket]), ?_⟩
    simp
  · right; right
    refine ⟨?_, rfl⟩
    show 0 ≤ w.ret (tr ++ [Event.socket])
    omega

theorem client_bytes_append (a b : List Event) :
    client_bytes (a ++ b) = client_bytes a ++ client_bytes b := by
  induction a with
  | nil => rfl
  | cons e a ih =>
    cases e with
    | send p fd d => cases p <;> simp [client_bytes, ih]
    | recv p fd cap => simp [client_bytes, ih]
    | close p fd => simp [client_bytes, ih]
    | socket => simp [client_bytes, ih]
    | connect fd ip port => simp [client_bytes, ih]
    | free => simp [client_bytes, ih]

theorem backend_replies_append (w : World) (pre a b : List Event) :
    backend_replies w pre (a ++ b) = backend_replies w pre a ++ backend_replies w (pre ++ a) b := by
  induction a generalizing pre with
  | nil => simp [backend_replies]
  | cons e a ih =>
    cases e with
    | send p fd d => simp [backend_replies, ih]
    | recv p fd cap => cases p <;> simp [backend_replies, ih]
    | close p fd => simp [backend_replies, ih]
    | socket => simp [backend_replies, ih]
    | connect fd ip port => simp [backend_replies, ih]
    | free => simp [backend_replies, ih]

theorem reconnect_cases (w : World) (targs : ThreadArgs) (after : List Nat) :
    ((reconnect w targs after).sock < 0 ∧
      (reconnect w targs after).trace = hist_close targs after ++ [Event.socket]) ∨
    ((reconnect w targs after).sock < 0 ∧
      ∃ fd, (reconnect w targs after).trace
        = hist_close targs after ++ [Event.socket,
            Event.connect fd (c_str targs.server_ip) (targs.server_port % 65536),
            Event.close Peer.server fd]) ∨
    (0 ≤ (reconnect w targs after).sock ∧
      (reconnect w targs after).trace
        = hist_close targs after ++ [Event.socket,
            Event.connect (reconnect w targs after).sock (c_str targs.server_ip)
              (targs.server_port % 65536)]) :=
  connect_to_server_cases w (hist_close targs after) targs.server_ip targs.server_port

theorem delivered_length (w : World) (hist : List Event) (cap : Nat) :
    (delivered w hist cap).length ≤ cap := by
  unfold delivered
  split
  · simp
  · simp [List.length_take]

/-- C8: the bytes `handle_request` sends to the client are exactly the bytes the
backend `recv` that succeeded returned (the retried one when a retry took
place), unmodified; when no backend `recv` succeeds nothing is sent to the
client; and on every path the client socket is closed, once. -/
theorem handle_request_relays_reply (w : World) (servers : List ServerInfo) (targs : ThreadArgs)
    (buffer after : List Nat) :
    client_bytes (handle_request w servers targs buffer after).trace
      = backend_replies w [] (handle_request w servers targs buffer after).trace ∧
    (backend_replies w [] (handle_request w servers targs buffer after).trace).length ≤ 1 ∧
    (∀ bs ∈ backend_replies w [] (handle_request w servers targs buffer after).trace,
      0 < bs.length ∧ bs.length ≤ BUFFER_SIZE - 1) ∧
    Event.close Peer.client targs.client_socket
      ∈ (handle_request w servers targs buffer after).trace ∧
    client_closes (handle_request w servers targs buffer after).trace = 1 := by
  have hlen1 := delivered_length w (hist_recv1 targs after) (BUFFER_SIZE - 1)
  have hlen2 := delivered_length w (hist_recv2 w targs after) (BUFFER_SIZE - 1)
  rw [handle_request_trace]
  rcases reconnect_cases w targs after with ⟨hs, ht⟩ | ⟨hs, fd, ht⟩ | ⟨hs, ht⟩ <;>
    split_ifs <;>
    simp only [hist_recv2, hist_send2, ht, hist_close, hist_recv1, hist_send1, cleanup_calls,
      List.append_assoc, List.cons_append, List.nil_append] at * <;>
    simp [client_bytes, backend_replies, client_closes, List.length_pos, *]

/-- C7 (as stated) fails: when the first `send` to the backend fails,
`handle_request` goes straight to `cleanup`; it closes no backend socket, makes no
connection attempt and sends nothing a second time. -/
theorem first_send_failure_is_not_retried :
    world_down.ret (hist_send1 sample_targs []) < 0 ∧
    (handle_request world_down [] sample_targs [] []).trace
      = [Event.send Peer.server 4 [86, 53], Event.close Peer.client 9, Event.free] ∧
    reconnects (handle_request world_down [] sample_targs [] []).trace = 0 ∧
    server_sends (handle_request world_down [] sample_targs [] []).trace = 1 := by
  decide

/-- C7 (amended): a failed first `send` ends the run at `cleanup` with no reconnect
and no retry. When the first `send` succeeds and the first `recv` returns zero
bytes or an error, `handle_request` closes the stale backend socket and calls
`connect_to_server` once; only if that succeeds does it send the request once
more, and only if that `send` succeeds does it receive once more. No run makes
more than one connection attempt, two sends to the backend or two receives. -/
theorem handle_request_retry_policy (w : World) (servers : List ServerInfo) (targs : ThreadArgs)
    (buffer after : List Nat) :
    (w.ret (hist_send1 targs after) < 0 →
      (handle_request w servers targs buffer after).trace
        = hist_send1 targs after ++ cleanup_calls targs) ∧
    (0 ≤ w.ret (hist_send1 targs after) →
      delivered w (hist_recv1 targs after) (BUFFER_SIZE - 1) = [] →
      (∃ rest, (reconnect w targs after).trace = hist_close targs after ++ Event.socket :: rest) ∧
      (∃ rest, (handle_request w servers targs buffer after).trace
        = (reconnect w targs after).trace ++ rest) ∧
      reconnects (handle_request w servers targs buffer after).trace = 1 ∧
      ((reconnect w targs after).sock < 0 →
        server_sends (handle_request w servers targs buffer after).trace = 1 ∧
        server_recvs (handle_request w servers targs buffer after).trace = 1) ∧
      (0 ≤ (reconnect w targs after).sock →
        (∃ rest, (handle_request w servers targs buffer after).trace
          = hist_send2 w targs after ++ rest) ∧
        server_sends (handle_request w servers targs buffer after).trace = 2 ∧
        (w.ret (hist_send2 w targs after) < 0 →
          server_recvs (handle_request w servers targs buffer after).trace = 1) ∧
        (0 ≤ w.ret (hist_send2 w targs after) →
          (∃ rest, (handle_request w servers targs buffer after).trace
            = hist_recv2 w targs after ++ rest) ∧
          server_recvs (handle_request w servers targs buffer after).trace = 2))) ∧
    (reconnects (handle_request w servers targs buffer after).trace ≤ 1 ∧
      server_sends (handle_request w servers targs buffer after).trace ≤ 2 ∧
      server_recvs (handle_request w servers targs buffer after).trace ≤ 2) := by
  rw [handle_request_trace]
  rcases reconnect_cases w targs after with ⟨hs, ht⟩ | ⟨hs, fd, ht⟩ | ⟨hs, ht⟩ <;>
    split_ifs <;>
    simp only [hist_recv2, hist_send2, ht, hist_close, hist_recv1, hist_send1, cleanup_calls,
      List.append_assoc, List.cons_append, List.nil_append] at * <;>
    (simp [reconnects, server_sends, server_recvs, *]; try omega)

theorem handle_request_retry_policy_witness :
    0 ≤ world_dropped.ret (hist_send1 sample_targs []) ∧
    delivered world_dropped (hist_recv1 sample_targs []) (BUFFER_SIZE - 1) = [] ∧
    0 ≤ (reconnect world_dropped sample_targs []).sock ∧
    reconnects (handle_request world_dropped [] sample_targs [] []).trace = 1 ∧
    server_sends (handle_request world_dropped [] sample_targs [] []).trace = 2 :=
  ⟨by decide, by decide, by decide,
    ((handle_request_retry_policy world_dropped [] sample_targs [] []).2.1
      (by decide) (by decide)).2.2.1,
    (((handle_request_retry_policy world_dropped [] sample_targs [] []).2.1
      (by decide) (by decide)).2.2.2.2 (by decide)).2.1⟩

theorem handle_request_targs (w : World) (servers : List ServerInfo) (targs : ThreadArgs)
    (buffer after : List Nat) :
    (handle_request w servers targs buffer after).targs =
      if w.ret (hist_send1 targs after) < 0 then targs
      else if delivered w (hist_recv1 targs after) (BUFFER_SIZE - 1) = [] then
        { targs with server_socket := (reconnect w targs after).sock }
      else targs := by
  unfold handle_request
  simp only [sys_recv_failed, sys_recv_trace]
  simp only [sys_send, List.nil_append, hist_send1, hist_recv1, hist_close, reconnect,
    request_bytes]
  split_ifs <;> rfl

/-- C10: `handle_request` never writes the registry: after every run `servers[]` is
what it was before, so the load assigned by `greedy_balance` is not rolled back.
When the thread was started by `main` on backend `c` and reconnects, the new
descriptor is stored in the `ThreadArgs` only, while `servers[c].socket` still
holds the descriptor `handle_request` has closed. -/
theorem handle_request_leaves_registry (w : World) (servers : List ServerInfo)
    (targs0 : ThreadArgs) (c : Nat) (s : ServerInfo) (client_socket : Int) (request : List Nat)
    (buffer after : List Nat) (hs : servers[c]? = some s) :
    (handle_request w servers targs0 buffer after).servers = servers ∧
    (0 ≤ w.ret (hist_send1 (main_thread_args client_socket request s) after) →
      delivered w (hist_recv1 (main_thread_args client_socket request s) after)
        (BUFFER_SIZE - 1) = [] →
      0 ≤ (reconnect w (main_thread_args client_socket request s) after).sock →
      (handle_request w servers (main_thread_args client_socket request s) buffer
          after).targs.server_socket
        = (reconnect w (main_thread_args client_socket request s) after).sock ∧
      Event.close Peer.server s.socket
        ∈ (handle_request w servers (main_thread_args client_socket request s) buffer
            after).trace ∧
      ∃ s1, (handle_request w servers (main_thread_args client_socket request s) buffer
            after).servers[c]? = some s1 ∧
        s1.socket = s.socket ∧ s1.expected_time = s.expected_time ∧
        s1.last_update = s.last_update) := by
  refine ⟨handle_request_servers w servers targs0 buffer after, ?_⟩
  intro h1 h2 h3
  have h1n : ¬ w.ret (hist_send1 (main_thread_args client_socket request s) after) < 0 := by
    omega
  have h3n : ¬ (reconnect w (main_thread_args client_socket request s) after).sock < 0 := by
    omega
  refine ⟨?_, ?_, s, ?_, rfl, rfl, rfl⟩
  · rw [handle_request_targs, if_neg h1n, if_pos h2]
  · rw [handle_request_trace, if_neg h1n, if_pos h2, if_neg h3n]
    have hmem : Event.close Peer.server s.socket
        ∈ hist_close (main_thread_args client_socket request s) after := by
      simp [hist_close, main_thread_args]
    obtain ⟨rest, hrest⟩ : ∃ rest, (reconnect w (main_thread_args client_socket request s)
        after).trace = hist_close (main_thread_args client_socket request s) after ++ rest := by
      rcases reconnect_cases w (main_thread_args client_socket request s) after with
        ⟨_, ht⟩ | ⟨_, fd, ht⟩ | ⟨_, ht⟩
      · exact ⟨_, ht⟩
      · exact ⟨_, ht⟩
      · exact ⟨_, ht⟩
    split_ifs <;> simp only [hist_recv2, hist_send2, hrest] <;> simp [hmem]
  · rw [handle_request_servers]
    exact hs

theorem handle_request_leaves_registry_witness :
    sample_servers[0]? = some (sample_servers.getD 0 sample_backend) ∧
    (handle_request world_dropped sample_servers sample_targs [] []).servers = sample_servers ∧
    (handle_request world_dropped sample_servers
      (main_thread_args 9 sample_request (sample_servers.getD 0 sample_backend)) []
        []).targs.server_socket = 7 :=
  ⟨rfl,
    (handle_request_leaves_registry world_dropped sample_servers sample_targs 0
      (sample_servers.getD 0 sample_backend) 9 sample_request [] [] rfl).1,
    by
      have h := ((handle_request_leaves_registry world_dropped sample_servers sample_targs 0
        (sample_servers.getD 0 sample_backend) 9 sample_request [] [] rfl).2
        (by decide) (by decide) (by decide)).1
      rw [h]
      decide⟩

theorem handle_request_first_call (w : World) (servers : List ServerInfo) (targs : ThreadArgs)
    (buffer after : List Nat) :
    (handle_request w servers targs buffer after).trace.head?
      = some (Event.send Peer.server targs.server_socket (request_bytes targs after)) := by
  rw [handle_request_trace]
  rcases reconnect_cases w targs after with ⟨_, ht⟩ | ⟨_, fd, ht⟩ | ⟨_, ht⟩ <;>
    split_ifs <;>
    simp [hist_recv2, hist_send2, ht, hist_close, hist_recv1, hist_send1]

theorem c_str_terminated (rx rest : List Nat) (hnz : ∀ b ∈ rx, b ≠ 0) :
    c_str (rx ++ 0 :: rest) = rx := by
  unfold c_str
  induction rx with
  | nil => simp
  | cons b rx ih =>
    have hb : b ≠ 0 := hnz b (by simp)
    have := ih (fun x hx => hnz x (by simp [hx]))
    rw [List.cons_append, List.takeWhile_cons, this]
    simp [hb]

/-- A request of at most nine bytes, none of them NUL, reaches the backend as it
was received. -/
theorem short_request_forwarded (rx garbage after : List Nat) (client_socket : Int)
    (s : ServerInfo) (hnz : ∀ b ∈ rx, b ≠ 0) (hlen : rx.length < 10) :
    request_bytes (main_thread_args client_socket (main_request_buffer rx garbage) s) after
      = rx := by
  have htake : rx.take (BUFFER_SIZE - 1) = rx :=
    List.take_of_length_le (by simp only [BUFFER_SIZE]; omega)
  have hsrc : c_str (main_request_buffer rx garbage) = rx := by
    unfold main_request_buffer
    simp only [htake]
    exact c_str_terminated rx _ hnz
  have hcopy : strncpy (main_request_buffer rx garbage) 10
      = rx ++ 0 :: List.replicate (9 - rx.length) 0 := by
    unfold strncpy strlen
    rw [hsrc, if_pos hlen]
    have : 10 - rx.length = (9 - rx.length) + 1 := by omega
    rw [this, List.replicate_succ]
  unfold request_bytes main_thread_args
  simp only [hcopy, List.append_assoc, List.cons_append]
  exact c_str_terminated rx _ hnz

theorem lit_long_request :
    lit "V5abcdefghij" = [86, 53, 97, 98, 99, 100, 101, 102, 103, 104, 105, 106] := by decide

theorem lit_backend_ip :
    lit "192.168.0.101" = [49, 57, 50, 46, 49, 54, 56, 46, 48, 46, 49, 48, 49] := by decide

/-- C9 (defect of the code): a request of twelve bytes is accepted by
`validate_request`, but `strncpy` copies only its first ten bytes into
`ThreadArgs.request` and writes no terminator, so `strlen` runs on into
`server_ip`: the backend is sent "V5abcdefgh192.168.0.101", not the twelve bytes
received. A request with a NUL in it, here `V5\0A`, is cut at the NUL. -/
theorem long_request_is_not_forwarded (w : World) (signed : Bool) (servers : List ServerInfo)
    (client_socket sock port : Int) (type : List Nat) (e l : ℚ)
    (garbage buffer after : List Nat) (d0 : Int) :
    (validate_request signed (main_request_buffer (lit "V5abcdefghij") garbage) d0).is_valid = 1 ∧
    (handle_request w servers
      (main_thread_args client_socket (main_request_buffer (lit "V5abcdefghij") garbage)
        ⟨sock, lit "192.168.0.101", port, type, e, l⟩) buffer after).trace.head?
      = some (Event.send Peer.server sock
          ([86, 53, 97, 98, 99, 100, 101, 102, 103, 104]
            ++ [49, 57, 50, 46, 49, 54, 56, 46, 48, 46, 49, 48, 49])) ∧
    (validate_request signed (main_request_buffer [86, 53, 0, 65] garbage) d0).is_valid = 1 ∧
    (handle_request w servers
      (main_thread_args client_socket (main_request_buffer [86, 53, 0, 65] garbage)
        ⟨sock, lit "192.168.0.101", port, type, e, l⟩) buffer after).trace.head?
      = some (Event.send Peer.server sock [86, 53]) := by
  refine ⟨?_, ?_, ?_, ?_⟩
  · rw [lit_long_request]
    exact (validate_request_on_buffer signed _ garbage d0 (by decide)).1.mpr
      ⟨86, 53, _, rfl, Or.inr (Or.inl rfl), by decide, by decide⟩
  · rw [handle_request_first_call, lit_long_request, lit_backend_ip]
    simp [request_bytes, main_thread_args, main_request_buffer, strncpy, strlen, c_str,
      BUFFER_SIZE, List.takeWhile_cons, List.replicate]
  · exact (validate_request_on_buffer signed _ garbage d0 (by decide)).1.mpr
      ⟨86, 53, _, rfl, Or.inr (Or.inl rfl), by decide, by decide⟩
  · rw [handle_request_first_call, lit_backend_ip]
    simp [request_bytes, main_thread_args, main_request_buffer, strncpy, strlen, c_str,
      BUFFER_SIZE, List.takeWhile_cons, List.replicate]

end LB2
